import Mathlib

/-!
Verification of the HootBot playback-queue core (src/main.py,
src/audio_manager.py, src/main_efficient.py) against its natural-language
specification.  The Python source is shallowly embedded: dynamic format
dictionaries become the `Format` structure, the filesystem and the yt-dlp
backend become explicit oracle inputs, and every fallible operation
returns `Option`.
-/

namespace HootBot

/-- One yt-dlp format dictionary, restricted to the fields the repository
reads.  `url` / `acodec` record truthiness of the corresponding dict keys
(`f.get('url')`, `f.get('acodec') not in (None, 'none')`); `fragments` and
`fragment_base_url` record truthiness of those keys; `live_note` records
whether the string `'live'` occurs in `str(f.get('format_note')).lower()`.
A Python `None` list entry behaves exactly like the all-default `Format`
(no url, no acodec, not fragmented), so format lists are `List Format`. -/
structure Format where
  url : Bool := false
  acodec : Bool := false
  fragments : Bool := false
  fragment_base_url : Bool := false
  protocol : String := ""
  live_note : Bool := false
  abr : Nat := 0
  tbr : Nat := 0
deriving Repr, DecidableEq

/-- `AudioManager._is_fragmented` (src/audio_manager.py): fragment keys or a
manifest-style protocol. -/
def am_is_fragmented (f : Format) : Bool :=
  f.fragment_base_url || f.fragments ||
    (f.protocol == "m3u8" || f.protocol == "m3u8_native" || f.protocol == "dash" ||
     f.protocol == "f4m" || f.protocol == "ism")

/-- Number of formats with a usable direct URL
(`sum(1 for f in formats if f and f.get('url'))`). -/
def countWithUrl (formats : List Format) : Nat :=
  (formats.filter (fun f => f.url)).length

/-- Number of fragmented formats
(`sum(1 for f in formats if self._is_fragmented(f))`). -/
def countFragmented (formats : List Format) : Nat :=
  (formats.filter am_is_fragmented).length

/-- `AudioManager._detect_sabr` (src/audio_manager.py:32-45): the value
stored into `info['_sabr_affected']`. -/
def detect_sabr (formats : List Format) : Bool :=
  let total := formats.length
  let with_url := countWithUrl formats
  let fragmented := countFragmented formats
  if total > 0 then
    if with_url == 0 || with_url * 4 < total || fragmented == total then true else false
  else false

/-- `MusicBot.extract_info` (src/main.py:216-230): the value stored into
`info['_needs_download']`, namely
`len(formats) > 0 and with_url * 3 < len(formats)`. -/
def main_needs_download (formats : List Format) : Bool :=
  decide (formats.length > 0) && decide (countWithUrl formats * 3 < formats.length)

/-- The needs-materialization rule in the spec's words: at least one
candidate, and (zero candidates with a URL, or fewer than one quarter of
the candidates with a URL, or every candidate fragmented). -/
def specQuarterRule (formats : List Format) : Bool :=
  decide (0 < formats.length) &&
    (decide (countWithUrl formats = 0) ||
     decide (4 * countWithUrl formats < formats.length) ||
     decide (countFragmented formats = formats.length))

/-- `MusicBot.select_format` (src/main.py:269-317): fragmentation test used
there (`fragments or fragment_base_url or protocol in ('m3u8','dash')`). -/
def sf_is_fragmented (f : Format) : Bool :=
  f.fragments || f.fragment_base_url || (f.protocol == "m3u8" || f.protocol == "dash")

/-- `select_format`: `has_seek_issues`. -/
def sf_has_seek_issues (f : Format) : Bool :=
  f.fragment_base_url || f.protocol == "dash" || f.live_note

/-- `select_format`: `is_fast_format`. -/
def sf_is_fast_format (f : Format) : Bool :=
  (f.protocol == "https" || f.protocol == "http") && !f.fragments

/-- A format qualifies for selection when it has a direct URL and an audio
codec (`if not f or not f.get('url') or f.get('acodec') in (None,'none'):
continue`).  Shared verbatim by `select_format` (src/main.py) and
`select_best_format` (src/audio_manager.py). -/
def qualifies (f : Format) : Bool :=
  f.url && f.acodec

/-- `f.get('abr', 0) or f.get('tbr', 0)`: the bitrate base score. -/
def baseBitrate (f : Format) : Int :=
  if f.abr ≠ 0 then (f.abr : Int) else (f.tbr : Int)

/-- `select_format` scoring (src/main.py:269-317): bitrate, +1000 if not
fragmented, +500 if no seek issues, +200 if fast format, +50 sweet-spot
bonus when the accumulated score is in (0, 160]. -/
def sf_score (f : Format) : Int :=
  let s0 := baseBitrate f
  let s1 := s0 + (if !sf_is_fragmented f then 1000 else 0)
  let s2 := s1 + (if !sf_has_seek_issues f then 500 else 0)
  let s3 := s2 + (if sf_is_fast_format f then 200 else 0)
  s3 + (if 0 < s3 ∧ s3 ≤ 160 then 50 else 0)

/-- `AudioManager.select_best_format` scoring (src/audio_manager.py:56-86):
bitrate, +1000 if not fragmented, +100 if plain http(s). -/
def am_score (f : Format) : Int :=
  let s0 := baseBitrate f
  let s1 := s0 + (if !am_is_fragmented f then 1000 else 0)
  s1 + (if f.protocol == "https" || f.protocol == "http" then 100 else 0)

/-- The selection loop shared by `select_format` (src/main.py) and
`select_best_format` (src/audio_manager.py): `best = None`,
`best_score = -1`, and for each format, skip non-qualifying ones, and
update `best` on `score > best_score` (strict, so ties keep the earlier
candidate).  The two call sites differ only in the score function. -/
def scanBest (sc : Format → Int) : List Format → Option Format → Int → Option Format
  | [], best, _ => best
  | f :: rest, best, best_score =>
    if qualifies f then
      if sc f > best_score then scanBest sc rest (some f) (sc f)
      else scanBest sc rest best best_score
    else scanBest sc rest best best_score

/-- `MusicBot.select_format` (src/main.py:269-317).  The source returns
`(best.get('url'), is_frag)`; since only url-bearing formats qualify, the
chosen format itself stands for its url string here, and `none` stands for
the source's `(None, False)` return. -/
def select_format (formats : List Format) : Option Format × Bool :=
  match scanBest sf_score formats none (-1) with
  | some best => (some best, sf_is_fragmented best)
  | none => (none, false)

/-- `AudioManager.select_best_format` (src/audio_manager.py:56-86); the
source's triple `(url, best, is_frag)` likewise collapses to the chosen
format plus its fragmentation bit. -/
def select_best_format (formats : List Format) : Option Format × Bool :=
  match scanBest am_score formats none (-1) with
  | some best => (some best, am_is_fragmented best)
  | none => (none, false)

/-- Modelled from the spec's words (section 4.2): "Retain the
maximum-scoring candidate; ties favor the first encountered. Return none
if no candidate qualifies": the first qualifying candidate whose score is
maximal among all qualifying candidates. -/
def specSelect (sc : Format → Int) (formats : List Format) : Option Format :=
  (formats.filter qualifies).find?
    (fun f => (formats.filter qualifies).all (fun g => decide (sc g ≤ sc f)))

/-- Proof helper: structural description of the selection loop's result,
picking the earliest maximum. -/
def firstMax (sc : Format → Int) : List Format → Option Format
  | [] => none
  | f :: rest =>
    if qualifies f then
      match firstMax sc rest with
      | none => some f
      | some g => if sc g > sc f then some g else some f
    else firstMax sc rest

/-- Proof helper: merge a best-so-far with the best of the remainder,
keeping the earlier one on ties. -/
def combine (sc : Format → Int) : Option Format → Option Format → Option Format
  | none, r => r
  | some b, none => some b
  | some b, some r => if sc r > sc b then some r else some b

lemma baseBitrate_nonneg (f : Format) : 0 ≤ baseBitrate f := by
  unfold baseBitrate; split <;> positivity

lemma sf_score_nonneg (f : Format) : 0 ≤ sf_score f := by
  have h := baseBitrate_nonneg f
  unfold sf_score
  dsimp only
  split_ifs <;> omega

lemma am_score_nonneg (f : Format) : 0 ≤ am_score f := by
  have h := baseBitrate_nonneg f
  unfold am_score
  dsimp only
  split_ifs <;> omega

lemma combine_none_left (sc : Format → Int) (r : Option Format) :
    combine sc none r = r := rfl

lemma combine_none_right (sc : Format → Int) (b : Option Format) :
    combine sc b none = b := by
  cases b <;> rfl

lemma combine_some_some (sc : Format → Int) (b r : Format) :
    combine sc (some b) (some r) = if sc r > sc b then some r else some b := rfl

/-- Merging with a weaker best-so-far is absorbed by a stronger later one. -/
lemma combine_absorb_lt (sc : Format → Int) (x f : Format) (r : Option Format)
    (h : sc f > sc x) :
    combine sc (some x) (combine sc (some f) r) = combine sc (some f) r := by
  cases r with
  | none => simp only [combine_none_right, combine_some_some]; rw [if_pos h]
  | some g =>
    rw [combine_some_some sc f g]
    by_cases hgf : sc g > sc f
    · rw [if_pos hgf, combine_some_some, if_pos (by omega : sc g > sc x)]
    · rw [if_neg hgf, combine_some_some, if_pos h]

/-- Merging with a best-so-far that already beats `f` ignores `f`. -/
lemma combine_absorb_ge (sc : Format → Int) (x f : Format) (r : Option Format)
    (h : ¬ sc f > sc x) :
    combine sc (some x) (combine sc (some f) r) = combine sc (some x) r := by
  cases r with
  | none => simp only [combine_none_right, combine_some_some]; rw [if_neg h]
  | some g =>
    rw [combine_some_some sc f g]
    by_cases hgf : sc g > sc f
    · rw [if_pos hgf, combine_some_some]
    · rw [if_neg hgf, combine_some_some, if_neg h, combine_some_some,
        if_neg (by omega : ¬ sc g > sc x)]

lemma firstMax_cons (sc : Format → Int) (f : Format) (rest : List Format) :
    firstMax sc (f :: rest) =
      if qualifies f then combine sc (some f) (firstMax sc rest)
      else firstMax sc rest := by
  rw [firstMax]
  by_cases hq : qualifies f
  · rw [if_pos hq, if_pos hq]
    cases firstMax sc rest <;> rfl
  · rw [if_neg hq, if_neg hq]

lemma scanBest_eq_combine (sc : Format → Int) (hsc : ∀ f, 0 ≤ sc f) :
    ∀ (l : List Format) (b : Option Format) (bs : Int),
      (b = none → bs = -1) → (∀ x, b = some x → bs = sc x) →
      scanBest sc l b bs = combine sc b (firstMax sc l) := by
  intro l
  induction l with
  | nil =>
    intro b bs _ _
    rw [scanBest, firstMax, combine_none_right]
  | cons f rest ih =>
    intro b bs hnone hsome
    rw [scanBest, firstMax_cons]
    by_cases hq : qualifies f
    · rw [if_pos hq, if_pos hq]
      cases b with
      | none =>
        have hbs : bs = -1 := hnone rfl
        have hgt : sc f > bs := by have := hsc f; omega
        rw [if_pos hgt, combine_none_left,
          ih (some f) (sc f) (by intro h; cases h) (by intro y hy; cases hy; rfl)]
      | some x =>
        have hbs : bs = sc x := hsome x rfl
        subst hbs
        by_cases hgt : sc f > sc x
        · rw [if_pos hgt,
            ih (some f) (sc f) (by intro h; cases h) (by intro y hy; cases hy; rfl),
            combine_absorb_lt sc x f _ hgt]
        · rw [if_neg hgt,
            ih (some x) (sc x) (by intro h; cases h) (by intro y hy; cases hy; rfl),
            combine_absorb_ge sc x f _ hgt]
    · rw [if_neg hq, if_neg hq]
      exact ih b bs hnone hsome

lemma combine_some_ne_none (sc : Format → Int) (b : Format) (r : Option Format) :
    combine sc (some b) r ≠ none := by
  cases r with
  | none => exact fun h => by cases h
  | some g =>
    rw [combine_some_some]
    split <;> exact fun h => by cases h

lemma firstMax_eq_none_iff (sc : Format → Int) (l : List Format) :
    firstMax sc l = none ↔ l.filter qualifies = [] := by
  induction l with
  | nil => simp [firstMax]
  | cons f rest ih =>
    rw [firstMax_cons]
    by_cases hq : qualifies f
    · rw [if_pos hq, List.filter_cons_of_pos hq]
      constructor
      · intro h; exact absurd h (combine_some_ne_none sc f _)
      · intro h; cases h
    · rw [if_neg hq, List.filter_cons_of_neg hq]
      exact ih

lemma firstMax_max (sc : Format → Int) (l : List Format) (b : Format)
    (h : firstMax sc l = some b) :
    b ∈ l.filter qualifies ∧ ∀ x ∈ l.filter qualifies, sc x ≤ sc b := by
  induction l generalizing b with
  | nil => cases h
  | cons f rest ih =>
    rw [firstMax_cons] at h
    by_cases hq : qualifies f
    · rw [if_pos hq] at h
      rw [List.filter_cons_of_pos hq]
      cases hfm : firstMax sc rest with
      | none =>
        rw [hfm, combine_none_right, Option.some_inj] at h
        subst h
        have hnil : rest.filter qualifies = [] := (firstMax_eq_none_iff sc rest).mp hfm
        rw [hnil]
        refine ⟨List.mem_singleton_self _, ?_⟩
        intro x hx
        rw [List.mem_singleton] at hx
        subst hx; exact le_refl _
      | some g =>
        rw [hfm, combine_some_some] at h
        obtain ⟨hgmem, hgmax⟩ := ih g hfm
        by_cases hgf : sc g > sc f
        · rw [if_pos hgf, Option.some_inj] at h
          subst h
          refine ⟨List.mem_cons_of_mem _ hgmem, ?_⟩
          intro x hx
          rcases List.mem_cons.mp hx with hx | hx
          · subst hx; omega
          · exact hgmax x hx
        · rw [if_neg hgf, Option.some_inj] at h
          subst h
          refine ⟨List.mem_cons_self _ _, ?_⟩
          intro x hx
          rcases List.mem_cons.mp hx with hx | hx
          · subst hx; exact le_refl _
          · have := hgmax x hx; omega
    · rw [if_neg hq] at h
      rw [List.filter_cons_of_neg hq]
      exact ih b h

lemma find?_congr_mem {α : Type} (p q : α → Bool) :
    ∀ l : List α, (∀ x ∈ l, p x = q x) → l.find? p = l.find? q := by
  intro l
  induction l with
  | nil => intro _; rfl
  | cons a rest ih =>
    intro h
    have ha : p a = q a := h a (List.mem_cons_self a rest)
    rw [List.find?_cons, List.find?_cons, ha,
      ih (fun x hx => h x (List.mem_cons_of_mem a hx))]

/-- The selection loop computes precisely the spec's "first maximum over
the qualifying candidates". -/
lemma firstMax_eq_specSelect (sc : Format → Int) (l : List Format) :
    firstMax sc l = specSelect sc l := by
  induction l with
  | nil => rfl
  | cons f rest ih =>
    rw [firstMax_cons]
    by_cases hq : qualifies f
    · rw [if_pos hq]
      unfold specSelect
      rw [List.filter_cons_of_pos hq]
      cases hfm : firstMax sc rest with
      | none =>
        rw [combine_none_right]
        have hnil : rest.filter qualifies = [] := (firstMax_eq_none_iff sc rest).mp hfm
        rw [hnil]
        simp
      | some g =>
        obtain ⟨hgmem, hgmax⟩ := firstMax_max sc rest g hfm
        rw [combine_some_some]
        by_cases hgf : sc g > sc f
        · rw [if_pos hgf]
          have hpf : ((f :: rest.filter qualifies).all
              (fun y => decide (sc y ≤ sc f))) = false := by
            rw [Bool.eq_false_iff]
            intro hall
            rw [List.all_eq_true] at hall
            have := hall g (List.mem_cons_of_mem f hgmem)
            rw [decide_eq_true_iff] at this
            omega
          rw [List.find?_cons]
          simp only [hpf]
          have hcongr : ∀ x ∈ rest.filter qualifies,
              ((f :: rest.filter qualifies).all (fun y => decide (sc y ≤ sc x))) =
              ((rest.filter qualifies).all (fun y => decide (sc y ≤ sc x))) := by
            intro x hx
            rw [List.all_cons]
            by_cases hrest :
                (rest.filter qualifies).all (fun y => decide (sc y ≤ sc x)) = true
            · rw [hrest, Bool.and_true]
              rw [List.all_eq_true] at hrest
              have hgx := hrest g hgmem
              rw [decide_eq_true_iff] at hgx
              rw [decide_eq_true_iff]
              omega
            · rw [Bool.eq_false_iff.mpr hrest, Bool.and_false]
          rw [find?_congr_mem _ _ _ hcongr, ← hfm]
          exact ih
        · rw [if_neg hgf]
          have hpf : ((f :: rest.filter qualifies).all
              (fun y => decide (sc y ≤ sc f))) = true := by
            rw [List.all_eq_true]
            intro x hx
            rcases List.mem_cons.mp hx with hx | hx
            · subst hx; exact decide_eq_true_eq.mpr (le_refl _)
            · have := hgmax x hx
              exact decide_eq_true_eq.mpr (by omega)
          rw [List.find?_cons]
          simp only [hpf]
    · rw [if_neg hq]
      unfold specSelect
      rw [List.filter_cons_of_neg hq]
      exact ih

lemma select_format_fst (l : List Format) :
    (select_format l).1 = specSelect sf_score l := by
  unfold select_format
  rw [scanBest_eq_combine sf_score sf_score_nonneg l none (-1) (fun _ => rfl)
      (fun x hx => Option.noConfusion hx),
    combine_none_left, firstMax_eq_specSelect]
  cases specSelect sf_score l <;> rfl

lemma select_best_format_fst (l : List Format) :
    (select_best_format l).1 = specSelect am_score l := by
  unfold select_best_format
  rw [scanBest_eq_combine am_score am_score_nonneg l none (-1) (fun _ => rfl)
      (fun x hx => Option.noConfusion hx),
    combine_none_left, firstMax_eq_specSelect]
  cases specSelect am_score l <;> rfl

lemma specSelect_eq_none_iff (sc : Format → Int) (l : List Format) :
    specSelect sc l = none ↔ l.filter qualifies = [] := by
  rw [← firstMax_eq_specSelect]
  exact firstMax_eq_none_iff sc l

/-- The spec's selector example: a progressive 128 kbps candidate. -/
def fmt128 : Format :=
  { url := true, acodec := true, protocol := "https", abr := 128 }

/-- The spec's selector example: a fragmented 320 kbps candidate. -/
def fmt320 : Format :=
  { url := true, acodec := true, fragments := true, protocol := "https", abr := 320 }

/-- **C5.** Both stream selectors (`select_format`, src/main.py:269-317, and
`select_best_format`, src/audio_manager.py:56-86) return `none` exactly when
no format has both a direct URL and an audio codec, and otherwise return the
maximum-scoring qualifying candidate with ties favoring the first
encountered (`specSelect` is that rule, written from the spec); on the
spec's example pair {url, frag=false, 128} / {url, frag=true, 320} they
select the non-fragmented 128 candidate. -/
theorem C5_stream_selector :
    (∀ l, (select_format l).1 = specSelect sf_score l) ∧
    (∀ l, (select_best_format l).1 = specSelect am_score l) ∧
    (∀ l, ((select_format l).1 = none ↔ l.filter qualifies = [])) ∧
    (∀ l, ((select_best_format l).1 = none ↔ l.filter qualifies = [])) ∧
    select_format [fmt128, fmt320] = (some fmt128, false) ∧
    select_best_format [fmt128, fmt320] = (some fmt128, false) := by
  refine ⟨select_format_fst, select_best_format_fst, ?_, ?_, by decide, by decide⟩
  · intro l
    rw [select_format_fst]
    exact specSelect_eq_none_iff sf_score l
  · intro l
    rw [select_best_format_fst]
    exact specSelect_eq_none_iff am_score l

lemma detect_sabr_eq_spec (formats : List Format) :
    detect_sabr formats = specQuarterRule formats := by
  unfold detect_sabr specQuarterRule
  dsimp only
  split_ifs with h h2 <;> simp_all <;> omega

/-- A list of ten formats of which the first `k` carry a direct URL and
none is fragmented. -/
def tenFormats (k : Nat) : List Format :=
  List.replicate k { url := true, acodec := true, protocol := "https" } ++
    List.replicate (10 - k) { url := false }

/-- **C2, counterexample.** The claim's "fewer than one quarter" rule is
false for the `_needs_download` flag that `MusicBot.extract_info`
(src/main.py:216-230) computes at extraction time: with 10 formats of which
3 have URLs (and none fragmented) the code flags true (one-third
threshold, `with_url * 3 < len(formats)`), while the claimed quarter rule
says false. -/
theorem C2_counterexample :
    main_needs_download (tenFormats 3) = true ∧
    specQuarterRule (tenFormats 3) = false := by decide

/-- **C2, amended.** The quarter rule (zero URLs, or fewer than one quarter
with a URL, or all fragmented) is exactly the `_sabr_affected` flag of
`AudioManager._detect_sabr` (src/audio_manager.py:32-45); the
`_needs_download` flag of `MusicBot.extract_info` (src/main.py:216-230)
instead uses a one-third threshold (`with_url * 3 < len(formats)`) with no
all-fragmented disjunct.  Both agree on the spec's examples: 10 formats
with 2 URLs flag true, 10 formats with 5 URLs flag false. -/
theorem C2_needs_materialization_amended :
    (∀ formats, detect_sabr formats = specQuarterRule formats) ∧
    (∀ formats, main_needs_download formats =
      (decide (0 < formats.length) && decide (countWithUrl formats * 3 < formats.length))) ∧
    detect_sabr (tenFormats 2) = true ∧ main_needs_download (tenFormats 2) = true ∧
    detect_sabr (tenFormats 5) = false ∧ main_needs_download (tenFormats 5) = false := by
  refine ⟨detect_sabr_eq_spec, ?_, by decide, by decide, by decide, by decide⟩
  intro formats
  unfold main_needs_download
  rw [Nat.mul_comm]

/-- Extraction metadata as `play_audio` reads it: the format list and the
`info.get('_needs_download', False)` flag. -/
structure Info where
  formats : List Format
  needs_download_flag : Bool
deriving Repr, DecidableEq

/-- `play_audio` (src/main.py:1084-1097): the `needs_download` decision,
`FORCE_DOWNLOAD or (FORCE_DOWNLOAD_FRAGMENTED and is_fragmented) or
not stream_url or entry.info.get('_needs_download', False)`, with
`(stream_url, is_fragmented) = select_format(entry.info)`.  The two policy
globals are parameters here. -/
def play_audio_needs_download (force_download force_download_fragmented : Bool)
    (info : Info) : Bool :=
  let sel := select_format info.formats
  force_download || (force_download_fragmented && sel.2) || sel.1.isNone ||
    info.needs_download_flag

/-- `MusicBot.select_format` of src/main_efficient.py:81-112 scoring:
bitrate, +1000 if not fragmented — no further bonuses (unlike main.py's
selector). -/
def eff_score (f : Format) : Int :=
  baseBitrate f + (if !sf_is_fragmented f then 1000 else 0)

/-- `MusicBot.select_format` (src/main_efficient.py:81-112): the same loop,
qualification test and fragmentation test
(`fragments or fragment_base_url or protocol in ('m3u8','dash')`) as
main.py's selector, with the reduced scoring `eff_score`. -/
def eff_select_format (formats : List Format) : Option Format × Bool :=
  match scanBest eff_score formats none (-1) with
  | some best => (some best, sf_is_fragmented best)
  | none => (none, false)

/-- `play_audio` (src/main_efficient.py:203-228): `needs_download =
entry.info.get('_needs_download', False) or is_fragmented or not
stream_url`, where `(stream_url, is_fragmented)` come from
main_efficient's own `select_format` (no policy globals exist in that
entry point). -/
def eff_needs_download (info : Info) : Bool :=
  let sel := eff_select_format info.formats
  info.needs_download_flag || sel.2 || sel.1.isNone

/-- **C4.** Each entry point's materialization decision holds exactly when
one of the four claimed conditions does, evaluated on that entry point's
own stream selector: for main.py's `play_audio` (src/main.py:1084-1097)
with the two policy globals as parameters, and for main_efficient's
`play_audio` (src/main_efficient.py:203-228), which hard-codes the policy
pair (always-materialize off, materialize-fragmented on), so its
disjunction collapses to fragmented-chosen-format ∨ no-stream ∨ flag.
Both decisions are deterministic functions of (policies, selector result,
flag). -/
theorem C4_materialization_decision :
    (∀ (fd ff : Bool) (info : Info),
      play_audio_needs_download fd ff info = true ↔
        fd = true ∨ (ff = true ∧ (select_format info.formats).2 = true) ∨
        (select_format info.formats).1 = none ∨ info.needs_download_flag = true) ∧
    (∀ (fd ff : Bool) (i1 i2 : Info),
      select_format i1.formats = select_format i2.formats →
      i1.needs_download_flag = i2.needs_download_flag →
      play_audio_needs_download fd ff i1 = play_audio_needs_download fd ff i2) ∧
    (∀ info : Info,
      eff_needs_download info = true ↔
        (true = true ∧ (eff_select_format info.formats).2 = true) ∨
        (eff_select_format info.formats).1 = none ∨
        info.needs_download_flag = true) ∧
    (∀ i1 i2 : Info,
      eff_select_format i1.formats = eff_select_format i2.formats →
      i1.needs_download_flag = i2.needs_download_flag →
      eff_needs_download i1 = eff_needs_download i2) := by
  refine ⟨?_, ?_, ?_, ?_⟩
  · intro fd ff info
    simp [play_audio_needs_download, Option.isNone_iff_eq_none]
    tauto
  · intro fd ff i1 i2 hsel hflag
    simp only [play_audio_needs_download, hsel, hflag]
  · intro info
    simp [eff_needs_download, Option.isNone_iff_eq_none]
    tauto
  · intro i1 i2 hsel hflag
    simp only [eff_needs_download, hsel, hflag]

/-- **C4, witness.** The decision function applied at a concrete input,
discharging the determinism hypotheses. -/
theorem C4_witness :
    play_audio_needs_download true false ⟨[], false⟩ =
      play_audio_needs_download true false ⟨[], false⟩ :=
  C4_materialization_decision.2.1 true false ⟨[], false⟩ ⟨[], false⟩ rfl rfl

/-- One invocation of `play_next` (src/main.py:1219-1264), with each queued
item abstracted to whether its `play_audio` attempt succeeds.  The loop
pops the head, stops at the first success (one now-playing transition),
and after each failure appends to `failed_songs` and sends the batched
skip notice when `len(failed_songs) % 5 == 1`.  The second argument is the
running failure count (`len(failed_songs)`, `0` at entry); the result is
(now-playing transitions, batched notices, final failure count). -/
def play_next_run : List Bool → Nat → Nat × Nat × Nat
  | [], failed => (0, 0, failed)
  | b :: rest, failed =>
    if b then (1, 0, failed)
    else
      let failed' := failed + 1
      let r := play_next_run rest failed'
      (r.1, (if failed' % 5 = 1 then 1 else 0) + r.2.1, r.2.2)

/-- Proof helper: notices emitted over `n` further failures starting from
failure count `f`. -/
def countNotices : Nat → Nat → Nat
  | _, 0 => 0
  | f, n + 1 => (if (f + 1) % 5 = 1 then 1 else 0) + countNotices (f + 1) n

lemma play_next_run_replicate (n : Nat) :
    ∀ f, play_next_run (List.replicate n false ++ [true]) f =
      (1, countNotices f n, f + n) := by
  induction n with
  | zero => intro f; simp [play_next_run, countNotices]
  | succ n ih =>
    intro f
    rw [List.replicate_succ, List.cons_append, play_next_run]
    simp only [if_neg (by simp : ¬ false = true)]
    rw [ih (f + 1)]
    simp only [countNotices]
    refine Prod.ext rfl (Prod.ext rfl ?_)
    simp
    omega

lemma countNotices_closed (n : Nat) :
    ∀ f, countNotices f n = (f + n + 4) / 5 - (f + 4) / 5 := by
  induction n with
  | zero => intro f; simp [countNotices]
  | succ n ih =>
    intro f
    rw [countNotices, ih (f + 1)]
    split_ifs with h <;> omega

/-- **C1, counterexample.** On a queue of 7 items where items 1-6 fail and
item 7 succeeds, `play_next` produces one now-playing transition but TWO
batched notices (after the 1st and the 6th failure, since the notice
condition is `len(failed_songs) % 5 == 1`), not the single notice the
claim requires. -/
theorem C1_counterexample :
    (play_next_run (List.replicate 6 false ++ [true]) 0).1 = 1 ∧
    (play_next_run (List.replicate 6 false ++ [true]) 0).2.1 = 2 := by decide

/-- **C1, amended.** During skip-ahead the engine increments the failure
count and continues down the queue, emitting the batched notice when the
running consecutive-failure count is congruent to 1 mod 5 (after the 1st,
6th, 11th, ... failure): a run of `n` failures followed by a success yields
exactly one now-playing transition and `⌈n/5⌉` notices — so 5 consecutive
failures yield one notice and 10 yield two, but the 7-item queue with
items 1-6 failing yields one now-playing transition and two notices. -/
theorem C1_skip_ahead_amended :
    (∀ n, play_next_run (List.replicate n false ++ [true]) 0 = (1, (n + 4) / 5, n)) ∧
    play_next_run (List.replicate 6 false ++ [true]) 0 = (1, 2, 6) ∧
    play_next_run (List.replicate 5 false ++ [true]) 0 = (1, 1, 5) ∧
    play_next_run (List.replicate 10 false ++ [true]) 0 = (1, 2, 10) := by
  refine ⟨?_, by decide, by decide, by decide⟩
  intro n
  rw [play_next_run_replicate n 0, countNotices_closed n 0]
  simp

/-- Per-guild session state as main.py keeps it: the queue (items
abstracted to whether their playback attempt succeeds), whether the voice
client is playing, and whether an idle-timeout task is pending in
`timeout_tasks`. -/
structure SessionState where
  queue : List Bool
  playing : Bool
  timerArmed : Bool
deriving Repr, DecidableEq

/-- State effect of one `play_next` invocation (src/main.py:1219-1264):
each loop iteration cancels any pending idle timer under the lock, then
pops the head and attempts it; the loop stops on the first success
(playing), and arms the idle timer when the queue is exhausted. -/
def playNextState (q : List Bool) : SessionState :=
  match q with
  | [] => ⟨[], false, true⟩
  | b :: rest => if b then ⟨rest, true, false⟩ else playNextState rest

/-- State effect of the `play` command (src/main.py:1339-1414): append the
entry to the queue; if nothing is playing, fall into `play_next`. -/
def enqueueStep (s : SessionState) (item : Bool) : SessionState :=
  if s.playing then { s with queue := s.queue ++ [item] }
  else playNextState (s.queue ++ [item])

/-- State effect of `skip` (`voice_client.stop()` → completion callback →
`playback_finished` → `play_next`), which is also the successful-dequeue /
completion transition; a no-op when nothing plays. -/
def skipStep (s : SessionState) : SessionState :=
  if s.playing then playNextState s.queue else s

/-- State effect of `leave_voice` (src/main.py:1288-1306), the repo's
clear/teardown path: stop playback, clear the queue, cancel any pending
idle timer, disconnect. -/
def clearStep (_ : SessionState) : SessionState := ⟨[], false, false⟩

/-- The claimed invariant: the idle timer is armed iff the queue is empty
and nothing is playing. -/
def idleInvariant (s : SessionState) : Prop :=
  s.timerArmed = (s.queue.isEmpty && !s.playing)

instance (s : SessionState) : Decidable (idleInvariant s) := by
  unfold idleInvariant; infer_instance

/-- Events observable in one `play_next` invocation, in program order. -/
inductive QueueEvent where
  | cancelTimer
  | popItem
  | startPlay
  | armTimer
deriving Repr, DecidableEq

/-- The event trace of `play_next` (src/main.py:1219-1264): each iteration
first cancels a pending timer under the lock, then either arms the idle
timer (empty queue) or pops and attempts the head. -/
def playNextEvents : List Bool → List QueueEvent
  | [] => [.cancelTimer, .armTimer]
  | b :: rest =>
    .cancelTimer :: .popItem ::
      (if b then [.startPlay] else playNextEvents rest)

lemma playNextState_invariant (q : List Bool) : idleInvariant (playNextState q) := by
  induction q with
  | nil => rfl
  | cons b rest ih =>
    rw [playNextState]
    by_cases hb : b = true
    · subst hb; rw [if_pos rfl]; unfold idleInvariant; simp
    · rw [Bool.not_eq_true] at hb; subst hb
      rw [if_neg (by simp)]
      exact ih

/-- **C3, counterexample.** After the clear transition (`leave_voice`,
src/main.py:1288-1306) the queue is empty and nothing is playing, yet the
idle timer is cancelled, not armed — the claimed iff fails on that
transition. -/
theorem C3_counterexample :
    (clearStep ⟨[], true, false⟩).queue = [] ∧
    (clearStep ⟨[], true, false⟩).playing = false ∧
    ¬ idleInvariant (clearStep ⟨[], true, false⟩) := by decide

/-- **C3, amended.** After every enqueue, successful-dequeue/completion and
skip transition the idle timer is armed iff the queue is empty and nothing
is playing, and each `play_next` invocation cancels a pending timer before
any pop; the clear transition (`leave_voice`, the session teardown)
instead cancels the timer and leaves it disarmed with an empty queue and
nothing playing. -/
theorem C3_idle_timer_amended :
    (∀ (s : SessionState) (item : Bool),
      idleInvariant s → idleInvariant (enqueueStep s item)) ∧
    (∀ s : SessionState, idleInvariant s → idleInvariant (skipStep s)) ∧
    (∀ q : List Bool, idleInvariant (playNextState q)) ∧
    (∀ q : List Bool, (playNextEvents q).head? = some QueueEvent.cancelTimer) ∧
    (∀ s : SessionState, (clearStep s).timerArmed = false ∧
      (clearStep s).queue = [] ∧ (clearStep s).playing = false) := by
  refine ⟨?_, ?_, playNextState_invariant, ?_, fun s => ⟨rfl, rfl, rfl⟩⟩
  · intro s item hs
    unfold enqueueStep
    by_cases hp : s.playing = true
    · rw [if_pos hp]
      unfold idleInvariant at hs ⊢
      rw [hs, hp]
      simp
    · rw [Bool.not_eq_true] at hp
      rw [if_neg (by rw [hp]; simp)]
      exact playNextState_invariant _
  · intro s hs
    unfold skipStep
    by_cases hp : s.playing = true
    · rw [if_pos hp]
      exact playNextState_invariant _
    · rw [if_neg hp]
      exact hs
  · intro q
    cases q <;> rfl

/-- **C3, witness.** The amended invariant applied to a concrete armed-idle
state receiving an enqueue whose item fails, then one whose item plays. -/
theorem C3_witness :
    idleInvariant (enqueueStep ⟨[], false, true⟩ true) ∧
    idleInvariant (skipStep ⟨[false, true], true, false⟩) :=
  ⟨C3_idle_timer_amended.1 ⟨[], false, true⟩ true (by decide),
   C3_idle_timer_amended.2.1 ⟨[false, true], true, false⟩ (by decide)⟩

/-- The inputs `download_audio` (src/main.py:319-379) draws from the
extraction backend and the filesystem: whether
`ytdl.extract_info(url, download=True)` returned info, the filename
`prepare_filename` produced, the size of each file on disk (`none` =
missing, and `getsize` on a missing file raises, which the enclosing
`try` turns into a `None` return), and the similar-named file that the
directory listing yields when the expected name is absent. -/
structure DownloadEnv where
  download_info : Bool
  filename : Option String
  fsize : String → Option Nat
  similar : Option String

/-- `MusicBot.download_audio` (src/main.py:319-379): require backend info
and a filename, fall back to a similar-named file when the expected one is
missing, reject files smaller than 1000 bytes as corrupt, and return the
accepted absolute path (`None` on every failure path). -/
def download_audio (env : DownloadEnv) : Option String :=
  if env.download_info then
    match env.filename with
    | some fn =>
      match env.fsize fn with
      | some sz => if sz < 1000 then none else some fn
      | none =>
        match env.similar with
        | some fn2 =>
          match env.fsize fn2 with
          | some sz2 => if sz2 < 1000 then none else some fn2
          | none => none
        | none => none
    | none => none
  else none

/-- The download branch of `play_audio` (src/main.py:1098-1140): call
`download_audio`, then re-check that the file exists and has at least 1000
bytes before constructing the FFmpeg source; the result is the path whose
playback actually begins (`none`: no playback of a downloaded file). -/
def play_downloaded (env : DownloadEnv) : Option String :=
  match download_audio env with
  | none => none
  | some p =>
    match env.fsize p with
    | none => none
    | some sz => if sz < 1000 then none else some p

/-- `AudioManager.download_and_prepare` (src/audio_manager.py:88-101):
return the absolute path when the backend produced info, a filename was
generated, and the file exists (`if filename and os.path.exists(filename)`)
— there is no byte-size validation and no similar-file fallback on this
path; every other path falls through to `None`. -/
def download_and_prepare (env : DownloadEnv) : Option String :=
  if env.download_info then
    match env.filename with
    | some fn =>
      match env.fsize fn with
      | some _ => some fn
      | none => none
    | none => none
  else none

/-- The download branch of `play_entry` (src/bot_main.py:86-93): the path
from `download_and_prepare` goes straight to `voice_client.play` with no
further existence or size check, so playback of a downloaded file begins
exactly when `download_and_prepare` returned a path. -/
def play_entry_downloaded (env : DownloadEnv) : Option String :=
  match download_and_prepare env with
  | none => none
  | some p => some p

/-- A download that produced an existing but 5-byte (sub-threshold) file. -/
def tinyEnv : DownloadEnv :=
  ⟨true, some "clip.webm", fun _ => some 5, none⟩

/-- **C6, counterexample.** On the cited audio_manager/bot_main
materialization path, a downloaded file of only 5 bytes — far below the
1000-byte sanity threshold — is handed to the playback engine and its
playback begins: `download_and_prepare` checks existence only. -/
theorem C6_counterexample :
    play_entry_downloaded tinyEnv = some "clip.webm" ∧
    tinyEnv.fsize "clip.webm" = some 5 ∧ (5 : Nat) < 1000 := by decide

/-- **C6, amended.** On main.py's materialization path, `download_audio`
hands back a path only when that file exists with at least the 1000-byte
sanity threshold, playback of a downloaded file begins only for such a
validated path, and failed materialization means no downloaded-file
playback; on the audio_manager path, `download_and_prepare` validates
existence only — any existing downloaded file, regardless of size, is
returned and handed to the playback engine by `play_entry`. -/
theorem C6_size_validation_amended :
    (∀ (env : DownloadEnv) (p : String), download_audio env = some p →
      ∃ sz, env.fsize p = some sz ∧ 1000 ≤ sz) ∧
    (∀ (env : DownloadEnv) (p : String), play_downloaded env = some p →
      download_audio env = some p ∧ ∃ sz, env.fsize p = some sz ∧ 1000 ≤ sz) ∧
    (∀ env : DownloadEnv, download_audio env = none → play_downloaded env = none) ∧
    (∀ (env : DownloadEnv) (p : String), download_and_prepare env = some p →
      ∃ sz, env.fsize p = some sz) ∧
    (∀ (env : DownloadEnv) (fn : String) (sz : Nat),
      env.download_info = true → env.filename = some fn → env.fsize fn = some sz →
        play_entry_downloaded env = some fn) := by
  refine ⟨?_, ?_, ?_, ?_, ?_⟩
  · intro env p h
    unfold download_audio at h
    cases hdi : env.download_info with
    | false => rw [hdi] at h; simp at h
    | true =>
      rw [hdi] at h
      rw [if_pos rfl] at h
      cases hfn : env.filename with
      | none => rw [hfn] at h; exact Option.noConfusion h
      | some fn =>
        rw [hfn] at h
        dsimp only at h
        cases hsz : env.fsize fn with
        | some sz =>
          rw [hsz] at h
          dsimp only at h
          by_cases hlt : sz < 1000
          · rw [if_pos hlt] at h; exact Option.noConfusion h
          · rw [if_neg hlt] at h
            injection h with h
            subst h
            exact ⟨sz, hsz, by omega⟩
        | none =>
          rw [hsz] at h
          cases hsim : env.similar with
          | none => rw [hsim] at h; exact Option.noConfusion h
          | some fn2 =>
            rw [hsim] at h
            dsimp only at h
            cases hsz2 : env.fsize fn2 with
            | none => rw [hsz2] at h; exact Option.noConfusion h
            | some sz2 =>
              rw [hsz2] at h
              dsimp only at h
              by_cases hlt : sz2 < 1000
              · rw [if_pos hlt] at h; exact Option.noConfusion h
              · rw [if_neg hlt] at h
                injection h with h
                subst h
                exact ⟨sz2, hsz2, by omega⟩
  · intro env p h
    unfold play_downloaded at h
    cases hd : download_audio env with
    | none => rw [hd] at h; exact Option.noConfusion h
    | some q =>
      rw [hd] at h
      dsimp only at h
      cases hsz : env.fsize q with
      | none => rw [hsz] at h; exact Option.noConfusion h
      | some sz =>
        rw [hsz] at h
        dsimp only at h
        by_cases hlt : sz < 1000
        · rw [if_pos hlt] at h; exact Option.noConfusion h
        · rw [if_neg hlt] at h
          injection h with h
          subst h
          exact ⟨rfl, sz, hsz, by omega⟩
  · intro env h
    unfold play_downloaded
    rw [h]
  · intro env p h
    unfold download_and_prepare at h
    cases hdi : env.download_info with
    | false => rw [hdi] at h; simp at h
    | true =>
      rw [hdi] at h
      rw [if_pos rfl] at h
      cases hfn : env.filename with
      | none => rw [hfn] at h; exact Option.noConfusion h
      | some fn =>
        rw [hfn] at h
        dsimp only at h
        cases hsz : env.fsize fn with
        | none => rw [hsz] at h; exact Option.noConfusion h
        | some sz =>
          rw [hsz] at h
          dsimp only at h
          injection h with h
          subst h
          exact ⟨sz, hsz⟩
  · intro env fn sz hdi hfn hsz
    unfold play_entry_downloaded download_and_prepare
    rw [hdi, if_pos rfl, hfn]
    dsimp only
    rw [hsz]

/-- A concrete successful download environment. -/
def sampleEnv : DownloadEnv :=
  ⟨true, some "song.webm", fun _ => some 5000, none⟩

/-- **C6, witness.** The amended validation theorem applied to a concrete
download that produced a 5000-byte file, on both embedded paths. -/
theorem C6_witness :
    (∃ sz, sampleEnv.fsize "song.webm" = some sz ∧ 1000 ≤ sz) ∧
    play_entry_downloaded sampleEnv = some "song.webm" :=
  ⟨C6_size_validation_amended.1 sampleEnv "song.webm" rfl,
   C6_size_validation_amended.2.2.2.2 sampleEnv "song.webm" 5000 rfl rfl rfl⟩

/-- `shuffle_queue` (src/main.py:1740-1761): reject an empty queue or one
with fewer than 10 songs as a user error and leave it untouched; otherwise
apply `random.shuffle` in place.  The randomness is abstracted as the
permutation function `perm` the shuffle realizes; the Bool reports whether
a user error was sent. -/
def shuffle_queue {α : Type} (perm : List α → List α) (q : List α) : List α × Bool :=
  if q.length = 0 then (q, true)
  else if q.length < 10 then (q, true)
  else (perm q, false)

/-- **C7.** Shuffling a queue shorter than 10 reports a user error and
leaves the queue unchanged; shuffling a queue of length ≥ 10 applies the
permutation (so, whenever the underlying `random.shuffle` contract holds —
its output is a permutation of its input — every original item is still
present exactly once) and reports no error. -/
theorem C7_shuffle_threshold :
    (∀ {α : Type} (perm : List α → List α) (q : List α),
      q.length < 10 → shuffle_queue perm q = (q, true)) ∧
    (∀ {α : Type} (perm : List α → List α) (q : List α),
      10 ≤ q.length → List.Perm (perm q) q →
        List.Perm (shuffle_queue perm q).1 q ∧ (shuffle_queue perm q).2 = false) := by
  constructor
  · intro α perm q hlt
    unfold shuffle_queue
    split_ifs with h1
    · rfl
    · rfl
  · intro α perm q hge hperm
    unfold shuffle_queue
    split_ifs with h1 h2
    · omega
    · omega
    · exact ⟨hperm, rfl⟩

/-- **C7, witness.** A 5-item queue errors unchanged; a reversed 12-item
queue still holds all 12 original items. -/
theorem C7_witness :
    shuffle_queue id [1, 2, 3, 4, 5] = ([1, 2, 3, 4, 5], true) ∧
    List.Perm (shuffle_queue List.reverse (List.range 12)).1 (List.range 12) := by
  constructor
  · exact C7_shuffle_threshold.1 id [1, 2, 3, 4, 5] (by decide)
  · exact (C7_shuffle_threshold.2 List.reverse (List.range 12) (by decide)
      (List.reverse_perm _)).1

/-- Drop characters up to and including the first occurrence of `c`
(the tail of a regex match `[^c]*c`). -/
def dropPast (c : Char) : List Char → List Char
  | [] => []
  | x :: rest => if x = c then rest else dropPast c rest

/-- Fuel-driven worker for `stripDelim`; the fuel (the input length on
entry) only makes the recursion structural and is never exhausted. -/
def stripDelimF (o c : Char) : Nat → List Char → List Char
  | 0, l => l
  | _ + 1, [] => []
  | fuel + 1, x :: rest =>
    if x = o && rest.contains c then stripDelimF o c fuel (dropPast c rest)
    else x :: stripDelimF o c fuel rest

/-- `re.sub(r'\(o[^c]*c\)', '', title)` for a delimiter pair: remove every
leftmost `o...c` segment (an `o` with no later `c` stays, as the regex
cannot match it). -/
def stripDelim (o c : Char) (l : List Char) : List Char :=
  stripDelimF o c l.length l

/-- Fuel-driven worker for `removeSub`. -/
def removeSubF (pat : List Char) : Nat → List Char → List Char
  | 0, l => l
  | _ + 1, [] => []
  | fuel + 1, x :: rest =>
    if 0 < pat.length && pat.isPrefixOf (x :: rest) then
      removeSubF pat fuel ((x :: rest).drop pat.length)
    else x :: removeSubF pat fuel rest

/-- Python `s.replace(pat, '')`: delete the leftmost occurrences of `pat`,
scanning left to right (the guard on an empty pattern never fires; every
pattern used below is a non-empty word). -/
def removeSub (pat l : List Char) : List Char :=
  removeSubF pat l.length l

/-- The decoration words `normalize_title_for_comparison` strips, in the
source's order (note `'lyric'` precedes `'lyrics'`). -/
def removeWordsList : List String :=
  ["official", "music", "video", "audio", "lyric", "lyrics", "hd", "hq",
   "remaster", "remastered"]

/-- The dash-like separators of `re.split(r'[-–—|]', title)`. -/
def isSepChar (c : Char) : Bool :=
  c = '-' || c = '–' || c = '—' || c = '|'

/-- Python `str.split()` whitespace. -/
def pyIsSpace (c : Char) : Bool :=
  c = ' ' || c = '\t' || c = '\n' || c = '\x0b' || c = '\x0c' || c = '\r'

/-- `MusicBot.normalize_title_for_comparison` (src/main.py:759-776):
lowercase; strip `(...)` and `[...]` segments; delete the decoration
words; split on dash-like separators and keep the last part when the
split produced more than one; collapse whitespace
(`' '.join(title.split())`). -/
def normalize_title_for_comparison (title : String) : String :=
  let t1 := title.data.map Char.toLower
  let t2 := stripDelim '(' ')' t1
  let t3 := stripDelim '[' ']' t2
  let t4 := removeWordsList.foldl (fun acc w => removeSub w.data acc) t3
  let parts := t4.splitOnP isSepChar
  let t5 := if parts.length > 1 then parts.getLast?.getD [] else parts.head?.getD []
  let words := (t5.splitOnP pyIsSpace).filter (fun w => !w.isEmpty)
  ⟨List.intercalate [' '] words⟩

/-- `MusicBot.is_duplicate_in_queue` (src/main.py:778-785): the candidate
title is a duplicate when some queued entry's title has an equal
normalization. -/
def is_duplicate_in_queue (queue : List String) (title : String) : Bool :=
  queue.any (fun t =>
    normalize_title_for_comparison t == normalize_title_for_comparison title)

/-- **C8.** The two example titles normalize to equal strings, and a
candidate whose normalized title equals that of any queued entry is
rejected as a duplicate. -/
theorem C8_dedup_normalization :
    normalize_title_for_comparison "Song Title (Official Video)" =
      normalize_title_for_comparison "Artist - Song Title [Lyrics]" ∧
    (∀ (queue : List String) (title : String),
      (∃ t ∈ queue, normalize_title_for_comparison t =
        normalize_title_for_comparison title) →
      is_duplicate_in_queue queue title = true) := by
  constructor
  · decide
  · intro queue title ⟨t, ht, heq⟩
    unfold is_duplicate_in_queue
    rw [List.any_eq_true]
    exact ⟨t, ht, by rw [heq]; exact beq_self_eq_true _⟩

/-- **C8, witness.** With the first example title queued, the second is
rejected as a duplicate. -/
theorem C8_witness :
    is_duplicate_in_queue ["Song Title (Official Video)"]
      "Artist - Song Title [Lyrics]" = true :=
  C8_dedup_normalization.2 ["Song Title (Official Video)"]
    "Artist - Song Title [Lyrics]"
    ⟨"Song Title (Official Video)", by simp, C8_dedup_normalization.1⟩

/-- The playlist command's enqueue loop (src/main.py:1663-1679): append
each entry unless its title already normalizes to a queued one. -/
def enqueue_entries : List String → List String → List String
  | queue, [] => queue
  | queue, t :: rest =>
    if is_duplicate_in_queue queue t then enqueue_entries queue rest
    else enqueue_entries (queue ++ [t]) rest

/-- The search branch's enqueue loop (src/main.py:1587-1611): like
`enqueue_entries` but stops once `added_count` reaches the target. -/
def enqueue_capped (target : Nat) : List String → Nat → List String → List String
  | queue, _, [] => queue
  | queue, added, t :: rest =>
    if target ≤ added then queue
    else if is_duplicate_in_queue queue t then enqueue_capped target queue added rest
    else enqueue_capped target (queue ++ [t]) (added + 1) rest

/-- The playlist command's URL branch (src/main.py:1651-1679): if adding
all entries would pass 100, truncate to `allowed = 100 - current`; when
nothing is allowed, surface the queue-full error and add nothing
(`all_entries` is non-empty here, the command returns earlier otherwise).
Result: (new queue, queue-full error sent). -/
def playlist_add_url (queue : List String) (entries : List String) :
    List String × Bool :=
  if 100 < queue.length + entries.length then
    if 100 - queue.length = 0 then (queue, true)
    else (enqueue_entries queue (entries.take (100 - queue.length)), false)
  else (enqueue_entries queue entries, false)

/-- The playlist command's search branch (src/main.py:1570-1611): cap the
target at `100 - current`, erroring out when the queue is already full
(`max_songs` was validated to be at least 1). -/
def playlist_add_search (queue : List String) (max_songs : Nat)
    (results : List String) : List String × Bool :=
  if 100 < queue.length + max_songs then
    if 100 - queue.length = 0 then (queue, true)
    else (enqueue_capped (100 - queue.length) queue 0 results, false)
  else (enqueue_capped max_songs queue 0 results, false)

lemma enqueue_entries_length (entries : List String) :
    ∀ queue, (enqueue_entries queue entries).length ≤ queue.length + entries.length := by
  induction entries with
  | nil => intro queue; rw [enqueue_entries]; simp
  | cons t rest ih =>
    intro queue
    rw [enqueue_entries]
    by_cases hdup : is_duplicate_in_queue queue t = true
    · rw [if_pos hdup]
      have := ih queue
      simp only [List.length_cons]
      omega
    · rw [if_neg hdup]
      have := ih (queue ++ [t])
      simp only [List.length_append, List.length_cons, List.length_nil] at *
      omega

lemma enqueue_capped_length (target : Nat) (results : List String) :
    ∀ queue added, (enqueue_capped target queue added results).length ≤
      queue.length + (target - added) := by
  induction results with
  | nil => intro queue added; rw [enqueue_capped]; omega
  | cons t rest ih =>
    intro queue added
    rw [enqueue_capped]
    by_cases hfull : target ≤ added
    · rw [if_pos hfull]; omega
    · rw [if_neg hfull]
      by_cases hdup : is_duplicate_in_queue queue t = true
      · rw [if_pos hdup]
        have := ih queue added
        omega
      · rw [if_neg hdup]
        have := ih (queue ++ [t]) (added + 1)
        simp only [List.length_append, List.length_cons, List.length_nil] at *
        omega

/-- **C9.** The playlist bulk-enqueue paths never drive the queue past 100:
both branches append at most `100 - current` entries, and a queue already
at or above 100 is left untouched with the queue-full error surfaced. -/
theorem C9_playlist_queue_cap :
    (∀ queue entries, queue.length ≤ 100 →
      (playlist_add_url queue entries).1.length ≤ 100) ∧
    (∀ queue entries,
      (playlist_add_url queue entries).1.length - queue.length ≤ 100 - queue.length) ∧
    (∀ queue entries, 100 ≤ queue.length → entries ≠ [] →
      playlist_add_url queue entries = (queue, true)) ∧
    (∀ queue max_songs results, queue.length ≤ 100 →
      (playlist_add_search queue max_songs results).1.length ≤ 100) ∧
    (∀ queue max_songs results,
      (playlist_add_search queue max_songs results).1.length - queue.length ≤
        100 - queue.length) ∧
    (∀ queue max_songs results, 100 ≤ queue.length → 1 ≤ max_songs →
      playlist_add_search queue max_songs results = (queue, true)) := by
  have hurl : ∀ queue entries, queue.length ≤ 100 →
      (playlist_add_url queue entries).1.length ≤ 100 := by
    intro queue entries hq
    unfold playlist_add_url
    split_ifs with h1 h2
    · simpa using hq
    · have := enqueue_entries_length (entries.take (100 - queue.length)) queue
      have hlen : (entries.take (100 - queue.length)).length ≤ 100 - queue.length := by
        simp [List.length_take]
      simp only []
      omega
    · have := enqueue_entries_length entries queue
      simp only []
      omega
  have hsearch : ∀ queue max_songs results, queue.length ≤ 100 →
      (playlist_add_search queue max_songs results).1.length ≤ 100 := by
    intro queue max_songs results hq
    unfold playlist_add_search
    split_ifs with h1 h2
    · simpa using hq
    · have := enqueue_capped_length (100 - queue.length) results queue 0
      simp only []
      omega
    · have := enqueue_capped_length max_songs results queue 0
      simp only []
      omega
  refine ⟨hurl, ?_, ?_, hsearch, ?_, ?_⟩
  · intro queue entries
    by_cases hq : queue.length ≤ 100
    · have := hurl queue entries hq
      omega
    · have hresult : playlist_add_url queue entries = (queue, true) := by
        unfold playlist_add_url
        rw [if_pos (by omega), if_pos (by omega)]
      rw [hresult]
      dsimp only
      omega
  · intro queue entries hq hne
    unfold playlist_add_url
    have hpos : 0 < entries.length := List.length_pos.mpr hne
    rw [if_pos (by omega), if_pos (by omega)]
  · intro queue max_songs results
    by_cases hq : queue.length ≤ 100
    · have := hsearch queue max_songs results hq
      omega
    · have hresult : playlist_add_search queue max_songs results = (queue, true) := by
        unfold playlist_add_search
        rw [if_pos (by omega), if_pos (by omega)]
      rw [hresult]
      dsimp only
      omega
  · intro queue max_songs results hq hms
    unfold playlist_add_search
    rw [if_pos (by omega), if_pos (by omega)]

/-- **C9, witness.** A full queue of 100 entries rejects a further playlist
entry on both branches. -/
theorem C9_witness :
    playlist_add_url (List.replicate 100 "a") ["b"] = (List.replicate 100 "a", true) ∧
    playlist_add_search (List.replicate 100 "a") 5 ["b"] =
      (List.replicate 100 "a", true) :=
  ⟨C9_playlist_queue_cap.2.2.1 (List.replicate 100 "a") ["b"] (by simp) (by simp),
   C9_playlist_queue_cap.2.2.2.2.2 (List.replicate 100 "a") 5 ["b"] (by simp) (by omega)⟩

/-- Outcome of one call into the yt-dlp backend
(`ytdl.extract_info(url, download=False)`): it may raise, or return a
possibly absent metadata dict, reduced here to its format list. -/
inductive BackendResult where
  | raises (msg : String)
  | returns (formats : Option (List Format))

/-- Python substring containment (`needle in hay`). -/
def substrIn (needle : List Char) : List Char → Bool
  | [] => needle.isEmpty
  | x :: rest => needle.isPrefixOf (x :: rest) || substrIn needle rest

/-- `extract_info_fast`'s unavailability test on the exception text:
`'unavailable' in error_msg or 'not available' in error_msg or 'private'
in error_msg` after lowercasing. -/
def unavailable_error (msg : String) : Bool :=
  let m := msg.data.map Char.toLower
  substrIn "unavailable".data m || substrIn "not available".data m ||
    substrIn "private".data m

/-- `MusicBot.extract_info` (src/main.py:216-230): any backend exception is
caught and becomes `None`; a `None` info passes through; real info gets the
`_needs_download` flag attached. -/
def extract_info (backend : String → BackendResult) (url : String) : Option Info :=
  match backend url with
  | .raises _ => none
  | .returns none => none
  | .returns (some formats) => some ⟨formats, main_needs_download formats⟩

/-- `MusicBot.extract_info_fast` (src/main.py:232-267): serve a fresh cache
entry (less than `CACHE_DURATION = 300` seconds old) directly; otherwise
call the fast backend; on an exception whose text signals an unavailable
video return `None`, and on any other exception fall back to
`extract_info` on the standard backend (which itself never raises).  The
fast path stores no `_needs_download` key, so the flag reads as its
`False` default. -/
def extract_info_fast (fast std : String → BackendResult)
    (cache : Option (List Format × Nat)) (url : String) : Option Info :=
  let fresh :=
    match fast url with
    | .returns none => none
    | .returns (some formats) => some (⟨formats, false⟩ : Info)
    | .raises msg =>
      if unavailable_error msg then none else extract_info std url
  match cache with
  | some (formats, age) => if age < 300 then some ⟨formats, false⟩ else fresh
  | none => fresh

/-- `AudioManager.extract_info` (src/audio_manager.py:16-30): empty
locators short-circuit to `None`; exceptions are caught to `None`; real
info gets `_detect_sabr`'s `_sabr_affected` flag attached; a falsy info
falls through to the implicit `None` return. -/
def am_extract_info (backend : String → BackendResult) (url : String) : Option Info :=
  if url = "" then none
  else
    match backend url with
    | .raises _ => none
    | .returns none => none
    | .returns (some formats) => some ⟨formats, detect_sabr formats⟩

/-- **C10.** The extraction operations are total at their interface: every
backend outcome — including a raised exception and an empty locator — maps
to a plain `Option` result, never a propagated exception: exceptions
become `None` (or, for the fast path on non-"unavailable" errors, the
fallback's `Option` result), absent info stays `None`, and real info comes
back flagged. -/
theorem C10_extraction_totality :
    (∀ (std : String → BackendResult) (url msg : String),
      std url = .raises msg → extract_info std url = none) ∧
    (∀ (std : String → BackendResult) (url : String),
      std url = .returns none → extract_info std url = none) ∧
    (∀ (std : String → BackendResult) (url : String) (formats : List Format),
      std url = .returns (some formats) →
        extract_info std url = some ⟨formats, main_needs_download formats⟩) ∧
    (∀ (fast std : String → BackendResult) (url msg : String),
      fast url = .raises msg →
        extract_info_fast fast std none url =
          (if unavailable_error msg then none else extract_info std url)) ∧
    (∀ (fast std : String → BackendResult)
        (cache : Option (List Format × Nat)) (url : String),
      extract_info_fast fast std cache url = none ∨
        ∃ i, extract_info_fast fast std cache url = some i) ∧
    (∀ backend : String → BackendResult, am_extract_info backend "" = none) ∧
    (∀ (backend : String → BackendResult) (url msg : String),
      backend url = .raises msg → am_extract_info backend url = none) := by
  refine ⟨?_, ?_, ?_, ?_, ?_, ?_, ?_⟩
  · intro std url msg h
    unfold extract_info
    rw [h]
  · intro std url h
    unfold extract_info
    rw [h]
  · intro std url formats h
    unfold extract_info
    rw [h]
  · intro fast std url msg h
    unfold extract_info_fast
    rw [h]
  · intro fast std cache url
    cases h : extract_info_fast fast std cache url with
    | none => exact Or.inl rfl
    | some i => exact Or.inr ⟨i, rfl⟩
  · intro backend
    unfold am_extract_info
    rw [if_pos rfl]
  · intro backend url msg h
    unfold am_extract_info
    by_cases hurl : url = ""
    · rw [if_pos hurl]
    · rw [if_neg hurl, h]

/-- **C10, witness.** A backend that always raises still yields `None`
through both extraction wrappers. -/
theorem C10_witness :
    extract_info (fun _ => .raises "HTTP Error 403") "x" = none ∧
    am_extract_info (fun _ => .raises "boom") "x" = none :=
  ⟨C10_extraction_totality.1 (fun _ => .raises "HTTP Error 403") "x" "HTTP Error 403" rfl,
   C10_extraction_totality.2.2.2.2.2.2 (fun _ => .raises "boom") "x" "boom" rfl⟩

end HootBot
